import Mathlib

/-!
# Verification of the kfp `ContainerOp` graph-construction core

Shallow embedding of `src/sdk/python/kfp/dsl/_container_op.py`.

The scanner models Python's
`re.findall(r'{{pipelineparam:op=([\w\s_-]*);name=([\w\s_-]+);value=(.*?)}}', arg)`
character by character: for this particular pattern no backtracking into the
two character-class groups is possible (the literal separators start with `;`,
which is outside the class), so greedy class runs followed by literal matching
is exact; the non-greedy `(.*?)` stops at the first `}}` and `.` never matches
a newline.  `re.findall` tries each start position left to right and resumes
after the end of each match.

Character classes are modelled over ASCII (the repository only ever feeds
ASCII identifiers and tokens to these regexes).

Python's `list(set(matches))` enumerates a hash set in an
implementation-defined order (string hashing is even randomized per process),
so the constructor below is parameterized by the enumeration function used for
`list(set(...))`; `ValidSetListing` captures exactly what Python guarantees:
the result is duplicate-free and has the same elements as the scanned list.

The classes `_pipeline.Pipeline` and `_pipeline_param.PipelineParam` are
imported by the source file but are not part of the repository snapshot; they
are modelled from the spec where indicated.
-/

deriving instance DecidableEq for Except

namespace Kfp

/-- ASCII model of Python's `\s` inside a character class:
space, tab, newline, carriage return, vertical tab, form feed. -/
def isSpaceChar (c : Char) : Bool :=
  c = ' ' || c = '\t' || c = '\n' || c = '\r' || c = '\x0b' || c = '\x0c'

/-- ASCII model of the character class `[\w\s_-]` used for the `op` and
`name` groups of the pipeline-parameter regex. -/
def isClassChar (c : Char) : Bool :=
  c.isAlphanum || c = '_' || c = '-' || isSpaceChar c

/-- The literal head of a pipeline-parameter token. -/
def tokenHead : List Char := "\x7b\x7bpipelineparam:op=".toList

/-- The literal separator before the `name` group. -/
def nameSep : List Char := ";name=".toList

/-- The literal separator before the `value` group. -/
def valueSep : List Char := ";value=".toList

/-- Match a literal list of characters at the head of `s`; return the rest. -/
def matchLit : List Char → List Char → Option (List Char)
  | [], s => some s
  | _ :: _, [] => none
  | l :: ls, c :: cs => if c = l then matchLit ls cs else none

/-- Greedily take the maximal run of characters satisfying `isClassChar`
(the behaviour of a greedy character-class group). -/
def takeClassRun : List Char → List Char × List Char
  | [] => ([], [])
  | c :: cs =>
    if isClassChar c then
      let p := takeClassRun cs
      (c :: p.1, p.2)
    else ([], c :: cs)

/-- The non-greedy `(.*?)}}` tail of the token regex: consume the shortest
prefix of non-newline characters up to a literal `}}`; return the value group
and the rest of the input after the `}}`. -/
def matchValue : List Char → Option (List Char × List Char)
  | [] => none
  | [_] => none
  | c1 :: c2 :: rest =>
    if c1 = '}' ∧ c2 = '}' then some ([], rest)
    else if c1 = '\n' then none
    else (matchValue (c2 :: rest)).map (fun vr => (c1 :: vr.1, vr.2))

/-- Try to match one whole pipeline-parameter token at the head of `s`;
on success return the `(op, name, value)` groups and the rest of the input. -/
def matchToken (s : List Char) : Option ((String × String × String) × List Char) :=
  (matchLit tokenHead s).bind fun s1 =>
    (matchLit nameSep (takeClassRun s1).2).bind fun s3 =>
      if (takeClassRun s3).1 = [] then none
      else
        (matchLit valueSep (takeClassRun s3).2).bind fun s5 =>
          (matchValue s5).map fun vr =>
            ((String.mk (takeClassRun s1).1, String.mk (takeClassRun s3).1, String.mk vr.1),
              vr.2)

/-- One scanning pass of `re.findall` with explicit fuel (the fuel only
serves to make the recursion structural; `findTokens` supplies enough).
At each position: try to match a token; on success, emit its groups and
resume after the match; on failure, advance one character. -/
def findTokensFuel : Nat → List Char → List (String × String × String)
  | 0, _ => []
  | fuel + 1, s =>
    match matchToken s with
    | some (t, rest) => t :: findTokensFuel fuel rest
    | none =>
      match s with
      | [] => []
      | _ :: cs => findTokensFuel fuel cs

/-- `re.findall` of the pipeline-parameter regex over a string's characters:
all non-overlapping matches in left-to-right order, as `(op, name, value)`
group triples. -/
def findTokens (s : List Char) : List (String × String × String) :=
  findTokensFuel (s.length + 1) s

/-- The `matches` accumulation loop of `ContainerOp.__init__`:
`for arg in (command or []) + (arguments or []): matches += re.findall(...)`. -/
def scanArgs (args : List String) : List (String × String × String) :=
  args.foldr (fun arg acc => findTokens arg.toList ++ acc) []

/-- The serialization of a parameter reference into its embedded textual
token, `{{pipelineparam:op=<op>;name=<name>;value=<value>}}` (spec section 6). -/
def serializeToken (op name value : String) : String :=
  "\x7b\x7bpipelineparam:op=" ++ op ++ ";name=" ++ name ++ ";value=" ++ value ++ "\x7d\x7d"

/-- Whether a character list contains the two-character substring `}}`. -/
def hasBB : List Char → Bool
  | [] => false
  | [_] => false
  | c1 :: c2 :: rest => (c1 = '}' && c2 = '}') || hasBB (c2 :: rest)

/-- Modelled from the spec: `_pipeline_param.PipelineParam` (the Parameter
Reference type of spec section 3) is imported by the source file but absent
from the snapshot.  Attributes per the spec: a required `name`, a
`producing_op` (called `op_name` at the call sites, empty string meaning a
pipeline-level input) and an optional `value`.  The call sites in
`_container_op.py` are `PipelineParam(x[1], x[0], x[2])` (name, op, value
positionally) and `PipelineParam(name, op_name=self.name)` (no value). -/
structure PipelineParam where
  name : String
  op_name : String := ""
  value : Option String := none
deriving DecidableEq

/-- `PipelineParam(x[1], x[0], x[2])` applied to one regex group triple
`x = (op, name, value)`. -/
def tripleToParam (x : String × String × String) : PipelineParam :=
  { name := x.2.1, op_name := x.1, value := some x.2.2 }

/-- The error surface of the embedded code.  The source raises `ValueError`
with distinct messages; the spec names them `NoActiveGraphError`,
`InvalidNameError` and the `InvalidFormatError` family; one constructor per
distinct raise site. -/
inductive OpError where
  | noActivePipeline
  | invalidName (name : String)
  | invalidMemoryString
  | invalidCpuString
  | notAnInteger (param : String)
  | notPositive (param : String)
  | invalidGpuVendor
deriving DecidableEq

/-- The fields assigned by `ContainerOp.__init__`.  The payloads of
`volumes`, `volume_mounts` and `env_variables` are opaque Kubernetes objects
in the source; they are modelled as strings (no claim inspects them).
Python dicts are modelled as association lists in insertion order. -/
structure ContainerOp where
  human_name : String
  name : String
  image : String
  command : Option (List String)
  arguments : Option (List String)
  is_exit_handler : Bool
  resource_limits : List (String × String)
  resource_requests : List (String × String)
  node_selector : List (String × String)
  volumes : List String
  volume_mounts : List String
  env_variables : List String
  pod_annotations : List (String × String)
  pod_labels : List (String × String)
  num_retries : Nat
  argument_inputs : List PipelineParam
  file_outputs : Option (List (String × String))
  dependent_op_names : List String
  inputs : List PipelineParam
  outputs : List (String × PipelineParam)
  output : Option PipelineParam
deriving DecidableEq

/-- Modelled from the spec: the Graph Registry (`_pipeline.Pipeline`,
spec sections 3 and 4.1) is imported by the source file but absent from the
snapshot.  It owns the ordered node list, the set of identities already
assigned, and the subset of exit-handler identities. -/
structure Pipeline where
  ops : List ContainerOp
  used_ids : List String
  exit_ops : List String
deriving DecidableEq

/-- Modelled from the spec: identity normalization inside `Pipeline.add_op`
(spec section 4.1: display name lower-cased, runs of non-alphanumeric
characters collapsed to `-`).  The boolean argument records whether the
previous emitted character was already a collapsing dash. -/
def collapseChars : Bool → List Char → List Char
  | _, [] => []
  | prevDash, c :: cs =>
    if c.isAlphanum then c.toLower :: collapseChars false cs
    else if prevDash then collapseChars true cs
    else '-' :: collapseChars true cs

/-- Modelled from the spec: display-name normalization for identity
assignment (spec section 4.1). -/
def normalizeName (s : String) : String :=
  String.mk (collapseChars false s.toList)

/-- Modelled from the spec: uniqueness resolution of `Pipeline.add_op`
(spec sections 4.1 and 8): the normalized name if unused, otherwise the first
unused name among `base-1`, `base-2`, ... -/
def freshIdent (used : List String) (base : String) : String :=
  if base ∈ used then
    match ((List.range (used.length + 1)).map
        (fun k => base ++ "-" ++ toString (k + 1))).find? (fun s => ¬ s ∈ used) with
    | some s => s
    | none => base ++ "-" ++ toString (used.length + 2)
  else base

/-- Modelled from the spec: the registration side effect of
`Pipeline.add_op(op, is_exit_handler)` (spec section 4.1): append the node,
record its identity, and record it as an exit handler when flagged.  (Python
registers the object by reference in the middle of `__init__`; observed at
the construction boundary this equals registering the finished node.) -/
def Pipeline.register (p : Pipeline) (op : ContainerOp) (is_exit : Bool) : Pipeline :=
  { ops := p.ops ++ [op],
    used_ids := p.used_ids ++ [op.name],
    exit_ops := if is_exit then p.exit_ops ++ [op.name] else p.exit_ops }

/-- `re.match(r'^[A-Za-z][A-Za-z0-9\s_-]*$', name)` of the source.
In Python, `$` also matches just before one trailing newline, but a trailing
newline is itself inside the class `[A-Za-z0-9\s_-]` (via `\s`), so the
accepted language is exactly: nonempty, ASCII letter first, every further
character in the class. -/
def validName (s : String) : Bool :=
  match s.toList with
  | [] => false
  | c :: rest => c.isAlpha && rest.all (fun d => d.isAlphanum || isSpaceChar d || d = '_' || d = '-')

/-- The success path of `ContainerOp.__init__` after the two validation
checks, given the enumeration function `f` used for `list(set(matches))` and
the active pipeline `p` (which supplies the identity `self.name`). -/
def buildOp (f : List (String × String × String) → List (String × String × String))
    (p : Pipeline) (name image : String)
    (command arguments : Option (List String))
    (file_outputs : Option (List (String × String)))
    (is_exit_handler : Bool) : ContainerOp :=
  let ident := freshIdent p.used_ids (normalizeName name)
  let scanned := scanArgs (command.getD [] ++ arguments.getD [])
  let argument_inputs := (f scanned).map tripleToParam
  let outputs : List (String × PipelineParam) :=
    match file_outputs with
    | none => []
    | some fo =>
      if fo.isEmpty then []
      else fo.map (fun kv => (kv.1, ({ name := kv.1, op_name := ident } : PipelineParam)))
  { human_name := name
    name := ident
    image := image
    command := command
    arguments := arguments
    is_exit_handler := is_exit_handler
    resource_limits := []
    resource_requests := []
    node_selector := []
    volumes := []
    volume_mounts := []
    env_variables := []
    pod_annotations := []
    pod_labels := []
    num_retries := 0
    argument_inputs := argument_inputs
    file_outputs := file_outputs
    dependent_op_names := []
    inputs := if argument_inputs.isEmpty then [] else [] ++ argument_inputs
    outputs := outputs
    output := match outputs with
      | [kv] => some kv.2
      | _ => none }

/-- `ContainerOp.__init__`.  The active registry is threaded explicitly
(`st = none` models "no default pipeline"); the result is the constructed
node together with the registry after `add_op`. -/
def ContainerOp.init (f : List (String × String × String) → List (String × String × String))
    (st : Option Pipeline) (name image : String)
    (command arguments : Option (List String))
    (file_outputs : Option (List (String × String)))
    (is_exit_handler : Bool) : Except OpError (ContainerOp × Pipeline) :=
  match st with
  | none => .error .noActivePipeline
  | some p =>
    if validName name then
      let op := buildOp f p name image command arguments file_outputs is_exit_handler
      .ok (op, p.register op is_exit_handler)
    else .error (.invalidName name)

/-- `ContainerOp.after(op)`: `self.dependent_op_names.append(op.name)`. -/
def ContainerOp.after (self other : ContainerOp) : ContainerOp :=
  { self with dependent_op_names := self.dependent_op_names ++ [other.name] }

/-- Python dict assignment `d[k] = v`: update in place if the key exists
(keeping its position), otherwise append. -/
def dictInsert (d : List (String × String)) (k v : String) : List (String × String) :=
  if d.any (fun kv => kv.1 = k) then d.map (fun kv => if kv.1 = k then (k, v) else kv)
  else d ++ [(k, v)]

/-- `ContainerOp.add_resource_limit`. -/
def ContainerOp.add_resource_limit (self : ContainerOp) (rname value : String) : ContainerOp :=
  { self with resource_limits := dictInsert self.resource_limits rname value }

/-- `ContainerOp.add_resource_request`. -/
def ContainerOp.add_resource_request (self : ContainerOp) (rname value : String) : ContainerOp :=
  { self with resource_requests := dictInsert self.resource_requests rname value }

/-- The full-match tails accepted after the digit run by
`^[0-9]+(E|Ei|P|Pi|T|Ti|G|Gi|M|Mi|K|Ki){0,1}$`: an optional unit suffix,
optionally followed by one trailing newline (Python's `$` also matches just
before a single trailing newline). -/
def memoryTails : List String :=
  (["", "E", "Ei", "P", "Pi", "T", "Ti", "G", "Gi", "M", "Mi", "K", "Ki"].map
    (fun suf => [suf, suf ++ "\n"])).foldr (· ++ ·) []

/-- `re.match(r'^[0-9]+(E|Ei|P|Pi|T|Ti|G|Gi|M|Mi|K|Ki){0,1}$', s)`:
a nonempty maximal digit run (the suffix alternatives cannot start with a
digit, so the greedy run is exact) followed by one of the accepted tails. -/
def matchMemoryRegex (s : String) : Bool :=
  let cs := s.toList
  let ds := cs.takeWhile Char.isDigit
  let rest := cs.dropWhile Char.isDigit
  !ds.isEmpty && memoryTails.contains (String.mk rest)

/-- `ContainerOp._validate_memory_string`: `none` when valid, the raised
error otherwise. -/
def validate_memory_string (m : String) : Option OpError :=
  if matchMemoryRegex m then none else some .invalidMemoryString

/-- `re.match(r'^[0-9]+m$', s)` (again `$` accepts one trailing newline). -/
def matchCpuRegex (s : String) : Bool :=
  let cs := s.toList
  let ds := cs.takeWhile Char.isDigit
  let rest := cs.dropWhile Char.isDigit
  !ds.isEmpty && (rest = ['m'] || rest = ['m', '\n'])

/-- Python whitespace stripped by `float(str)` and `int(str)`. -/
def pyStripWs (cs : List Char) : List Char :=
  ((cs.dropWhile isSpaceChar).reverse.dropWhile isSpaceChar).reverse

/-- Drop one optional leading sign. -/
def dropSign : List Char → List Char
  | [] => []
  | c :: rest => if c = '+' || c = '-' then rest else c :: rest

/-- Tail of a CPython digit group: digits with single underscores allowed
only between digits. -/
def digitGroupRest : List Char → Bool
  | [] => true
  | c :: rest =>
    if c = '_' then
      match rest with
      | [] => false
      | d :: r2 => d.isDigit && digitGroupRest r2
    else c.isDigit && digitGroupRest rest

/-- A CPython digit group: nonempty, starts and ends with a digit, single
underscores only between digits (PEP 515). -/
def digitGroup : List Char → Bool
  | [] => false
  | c :: rest => c.isDigit && digitGroupRest rest

/-- Case-insensitive `inf`, `infinity` or `nan`. -/
def isInfNan (cs : List Char) : Bool :=
  let l := cs.map Char.toLower
  l = "inf".toList || l = "infinity".toList || l = "nan".toList

/-- Split at the first `e`/`E`, if any. -/
def splitOnE : List Char → List Char × Option (List Char)
  | [] => ([], none)
  | c :: rest =>
    if c = 'e' || c = 'E' then ([], some rest)
    else
      let p := splitOnE rest
      (c :: p.1, p.2)

/-- Split at the first `.`, if any. -/
def splitOnDot : List Char → List Char × Option (List Char)
  | [] => ([], none)
  | c :: rest =>
    if c = '.' then ([], some rest)
    else
      let p := splitOnDot rest
      (c :: p.1, p.2)

/-- A CPython decimal float body (no sign, no inf/nan):
`[digits][.digits][(e|E)[sign]digits]` with at least one mantissa digit. -/
def isPyDecimal (cs : List Char) : Bool :=
  let pe := splitOnE cs
  let pd := splitOnDot pe.1
  let ipOk := pd.1.isEmpty || digitGroup pd.1
  let fpOk := match pd.2 with
    | none => true
    | some fp => fp.isEmpty || digitGroup fp
  let someDigit := !pd.1.isEmpty ||
    (match pd.2 with
     | none => false
     | some fp => !fp.isEmpty)
  let expOk := match pe.2 with
    | none => true
    | some ex => digitGroup (dropSign ex)
  ipOk && fpOk && someDigit && expOk

/-- Whether CPython `float(s)` succeeds on the string `s` (ASCII model):
optional surrounding whitespace, optional sign, then `inf`/`infinity`/`nan`
(case-insensitive) or a decimal literal. -/
def pyFloatParseable (s : String) : Bool :=
  let body := dropSign (pyStripWs s.toList)
  isInfNan body || isPyDecimal body

/-- `ContainerOp._validate_cpu_string`: accept on `^[0-9]+m$`, otherwise
accept exactly when `float(cpu_string)` succeeds, otherwise the raised error. -/
def validate_cpu_string (c : String) : Option OpError :=
  if matchCpuRegex c then none
  else if pyFloatParseable c then none
  else some .invalidCpuString

/-- Numeric value of a digit group, ignoring underscores. -/
def digitsVal (cs : List Char) : Nat :=
  cs.foldl (fun acc c => if c = '_' then acc else acc * 10 + (c.toNat - '0'.toNat)) 0

/-- Whether CPython `int(s)` succeeds (base 10, ASCII model), and its value:
optional surrounding whitespace, optional sign, then a digit group. -/
def pyIntOfString (s : String) : Option Int :=
  let cs := pyStripWs s.toList
  match cs with
  | [] => none
  | c :: rest =>
    if c = '-' then
      if digitGroup rest then some (-(digitsVal rest : Int)) else none
    else if c = '+' then
      if digitGroup rest then some (digitsVal rest : Int) else none
    else if digitGroup (c :: rest) then some (digitsVal (c :: rest) : Int)
    else none

/-- `ContainerOp._validate_positive_number`: `int(str_value)` must succeed
and be positive. -/
def validate_positive_number (str_value param_name : String) : Option OpError :=
  match pyIntOfString str_value with
  | none => some (.notAnInteger param_name)
  | some v => if v ≤ 0 then some (.notPositive param_name) else none

/-- `ContainerOp.set_memory_request`: validate, then
`add_resource_request("memory", memory)`.  Returned Python-style as the
post-state of `self` together with the raised error, if any: the validator
runs before any mutation, so on error `self` is returned unchanged. -/
def ContainerOp.set_memory_request (self : ContainerOp) (memory : String) :
    ContainerOp × Option OpError :=
  match validate_memory_string memory with
  | some e => (self, some e)
  | none => (self.add_resource_request "memory" memory, none)

/-- `ContainerOp.set_memory_limit`. -/
def ContainerOp.set_memory_limit (self : ContainerOp) (memory : String) :
    ContainerOp × Option OpError :=
  match validate_memory_string memory with
  | some e => (self, some e)
  | none => (self.add_resource_limit "memory" memory, none)

/-- `ContainerOp.set_cpu_request`. -/
def ContainerOp.set_cpu_request (self : ContainerOp) (cpu : String) :
    ContainerOp × Option OpError :=
  match validate_cpu_string cpu with
  | some e => (self, some e)
  | none => (self.add_resource_request "cpu" cpu, none)

/-- `ContainerOp.set_cpu_limit`. -/
def ContainerOp.set_cpu_limit (self : ContainerOp) (cpu : String) :
    ContainerOp × Option OpError :=
  match validate_cpu_string cpu with
  | some e => (self, some e)
  | none => (self.add_resource_limit "cpu" cpu, none)

/-- `ContainerOp.set_gpu_limit(gpu, vendor)`: validate positivity, then the
vendor, then `add_resource_limit("<vendor>.com/gpu", gpu)`. -/
def ContainerOp.set_gpu_limit (self : ContainerOp) (gpu vendor : String) :
    ContainerOp × Option OpError :=
  match validate_positive_number gpu "gpu" with
  | some e => (self, some e)
  | none =>
    if vendor ≠ "nvidia" && vendor ≠ "amd" then (self, some .invalidGpuVendor)
    else (self.add_resource_limit (vendor ++ ".com/gpu") gpu, none)

/-- What Python guarantees about `list(set(m))`: a duplicate-free list with
exactly the elements of `m`, in an implementation-defined order. -/
def ValidSetListing
    (f : List (String × String × String) → List (String × String × String)) : Prop :=
  ∀ m, (f m).Nodup ∧ ∀ x, x ∈ f m ↔ x ∈ m

/-- One admissible behaviour of `list(set(m))` (duplicates dropped keeping
the last occurrence, relative order kept). -/
def pySetDedup (m : List (String × String × String)) : List (String × String × String) :=
  m.dedup

/-- Another admissible behaviour of `list(set(m))` (the same set enumerated
backwards). -/
def revSetDedup (m : List (String × String × String)) : List (String × String × String) :=
  m.dedup.reverse

/-- An empty active pipeline, for concrete runs. -/
def pipeline0 : Pipeline := { ops := [], used_ids := [], exit_ops := [] }

/-- A command string embedding two distinct parameter-reference tokens. -/
def cmdTwoTok : String :=
  "echo {{pipelineparam:op=a;name=x;value=1}} {{pipelineparam:op=b;name=y;value=2}}"

/-- The spec's duplicate-token example (spec section 8). -/
def cmdDupTok : String :=
  "echo {{pipelineparam:op=a;name=x;value=1}} {{pipelineparam:op=a;name=x;value=1}}"

/-- A fallback node value for total projections out of `Except`. -/
def defaultOp : ContainerOp :=
  { human_name := "", name := "", image := "", command := none, arguments := none,
    is_exit_handler := false, resource_limits := [], resource_requests := [],
    node_selector := [], volumes := [], volume_mounts := [], env_variables := [],
    pod_annotations := [], pod_labels := [], num_retries := 0, argument_inputs := [],
    file_outputs := none, dependent_op_names := [], inputs := [], outputs := [],
    output := none }

/-- Concrete run: construct a node from `cmdTwoTok` in an empty pipeline. -/
def resultTwoTok : Except OpError (ContainerOp × Pipeline) :=
  ContainerOp.init pySetDedup (some pipeline0) "echo" "img" (some [cmdTwoTok]) none none false

/-- The node of `resultTwoTok`. -/
def opTwoTok : ContainerOp :=
  match resultTwoTok with
  | .ok r => r.1
  | .error _ => defaultOp

/-- The post-state pipeline of `resultTwoTok`. -/
def pipTwoTok : Pipeline :=
  match resultTwoTok with
  | .ok r => r.2
  | .error _ => pipeline0

/-- Concrete run: construct a node from `cmdDupTok` in an empty pipeline. -/
def resultDupTok : Except OpError (ContainerOp × Pipeline) :=
  ContainerOp.init pySetDedup (some pipeline0) "echo" "img" (some [cmdDupTok]) none none false

/-- The node of `resultDupTok`. -/
def opDupTok : ContainerOp :=
  match resultDupTok with
  | .ok r => r.1
  | .error _ => defaultOp

/-- The post-state pipeline of `resultDupTok`. -/
def pipDupTok : Pipeline :=
  match resultDupTok with
  | .ok r => r.2
  | .error _ => pipeline0

/-- Concrete run: a node with a single declared output. -/
def resultOneOut : Except OpError (ContainerOp × Pipeline) :=
  ContainerOp.init pySetDedup (some pipeline0) "train" "img" none none
    (some [("model", "/out/model")]) false

/-- The node of `resultOneOut`. -/
def opOneOut : ContainerOp :=
  match resultOneOut with
  | .ok r => r.1
  | .error _ => defaultOp

/-- The post-state pipeline of `resultOneOut`. -/
def pipOneOut : Pipeline :=
  match resultOneOut with
  | .ok r => r.2
  | .error _ => pipeline0

/-- Concrete run: a node with two declared outputs. -/
def resultTwoOut : Except OpError (ContainerOp × Pipeline) :=
  ContainerOp.init pySetDedup (some pipeline0) "train" "img" none none
    (some [("a", "/a"), ("b", "/b")]) false

/-- The node of `resultTwoOut`. -/
def opTwoOut : ContainerOp :=
  match resultTwoOut with
  | .ok r => r.1
  | .error _ => defaultOp

/-- The post-state pipeline of `resultTwoOut`. -/
def pipTwoOut : Pipeline :=
  match resultTwoOut with
  | .ok r => r.2
  | .error _ => pipeline0

/-! ## Scanner lemmas -/

theorem matchLit_length {l s r : List Char} (h : matchLit l s = some r) :
    l.length + r.length = s.length := by
  induction l generalizing s with
  | nil => simp [matchLit] at h; simp [h]
  | cons a as ih =>
    cases s with
    | nil => simp [matchLit] at h
    | cons c cs =>
      simp only [matchLit] at h
      split at h
      · have := ih h
        simp [List.length_cons]
        omega
      · exact absurd h (by simp)

theorem takeClassRun_append (s : List Char) :
    (takeClassRun s).1 ++ (takeClassRun s).2 = s := by
  induction s with
  | nil => simp [takeClassRun]
  | cons c cs ih =>
    simp only [takeClassRun]
    split
    · simpa using ih
    · simp

theorem matchValue_eq {s v r : List Char} (h : matchValue s = some (v, r)) :
    s = v ++ '}' :: '}' :: r := by
  induction s generalizing v r with
  | nil => simp [matchValue] at h
  | cons c1 rest ih =>
    cases rest with
    | nil => simp [matchValue] at h
    | cons c2 rest2 =>
      simp only [matchValue] at h
      split at h
      · rename_i hb
        obtain ⟨h1, h2⟩ := hb
        rw [Option.some_inj, Prod.mk.injEq] at h
        obtain ⟨hv, hr⟩ := h
        subst hv hr h1 h2
        rfl
      · split at h
        · simp at h
        · rw [Option.map_eq_some'] at h
          obtain ⟨⟨v', r'⟩, hmv, hf⟩ := h
          rw [Prod.mk.injEq] at hf
          obtain ⟨hv, hr⟩ := hf
          subst hv hr
          have := ih hmv
          rw [this]
          rfl

theorem matchToken_rest_lt {s : List Char} {t : String × String × String}
    {rest : List Char} (h : matchToken s = some (t, rest)) :
    rest.length < s.length := by
  simp only [matchToken] at h
  cases hl1 : matchLit tokenHead s with
  | none => rw [hl1] at h; simp at h
  | some s1 =>
    rw [hl1, Option.some_bind] at h
    cases hl2 : matchLit nameSep (takeClassRun s1).2 with
    | none => rw [hl2] at h; simp at h
    | some s3 =>
      rw [hl2, Option.some_bind] at h
      by_cases hne : (takeClassRun s3).1 = []
      · rw [if_pos hne] at h; simp at h
      · rw [if_neg hne] at h
        cases hl3 : matchLit valueSep (takeClassRun s3).2 with
        | none => rw [hl3] at h; simp at h
        | some s5 =>
          rw [hl3, Option.some_bind] at h
          cases hmv : matchValue s5 with
          | none => rw [hmv] at h; simp at h
          | some vr =>
            rw [hmv, Option.map_some', Option.some_inj, Prod.mk.injEq] at h
            obtain ⟨-, hr⟩ := h
            have hl1' := matchLit_length hl1
            have hl2' := matchLit_length hl2
            have hl3' := matchLit_length hl3
            have hr1 := takeClassRun_append s1
            have hr2 := takeClassRun_append s3
            have he := matchValue_eq (s := s5) (v := vr.1) (r := vr.2)
              (by rw [hmv])
            subst hr
            have h5 : vr.2.length < s5.length := by
              rw [he]; simp; omega
            have hs3 : s5.length ≤ s3.length := by
              have hle : (takeClassRun s3).2.length ≤ s3.length := by
                conv_rhs => rw [← hr2]
                simp
              omega
            have hs1 : s3.length < s1.length := by
              have hle : (takeClassRun s1).2.length ≤ s1.length := by
                conv_rhs => rw [← hr1]
                simp
              have h6 : nameSep.length = 6 := by decide
              omega
            have h19 : tokenHead.length = 19 := by decide
            omega

theorem findTokensFuel_succ_some {f : Nat} {s rest : List Char}
    {t : String × String × String} (h : matchToken s = some (t, rest)) :
    findTokensFuel (f + 1) s = t :: findTokensFuel f rest := by
  simp [findTokensFuel, h]

theorem findTokensFuel_succ_none {f : Nat} {c : Char} {cs : List Char}
    (h : matchToken (c :: cs) = none) :
    findTokensFuel (f + 1) (c :: cs) = findTokensFuel f cs := by
  simp [findTokensFuel, h]

theorem findTokensFuel_eq :
    ∀ (n : Nat) (s : List Char), s.length ≤ n → ∀ f1 f2 : Nat,
      s.length < f1 → s.length < f2 → findTokensFuel f1 s = findTokensFuel f2 s := by
  intro n
  induction n using Nat.strong_induction_on with
  | _ n ih =>
    intro s hs f1 f2 h1 h2
    cases f1 with
    | zero => omega
    | succ g1 =>
      cases f2 with
      | zero => omega
      | succ g2 =>
        cases hm : matchToken s with
        | some tr =>
          obtain ⟨t, rest⟩ := tr
          rw [findTokensFuel_succ_some hm, findTokensFuel_succ_some hm]
          have hlt := matchToken_rest_lt hm
          have : findTokensFuel g1 rest = findTokensFuel g2 rest := by
            rcases Nat.eq_zero_or_pos n with hn | hn
            · omega
            · exact ih (n - 1) (by omega) rest (by omega) g1 g2 (by omega) (by omega)
          rw [this]
        | none =>
          cases s with
          | nil => simp [findTokensFuel, hm]
          | cons c cs =>
            rw [findTokensFuel_succ_none hm, findTokensFuel_succ_none hm]
            rcases Nat.eq_zero_or_pos n with hn | hn
            · simp at hs; omega
            · exact ih (n - 1) (by omega) cs (by simp at hs; omega) g1 g2
                (by simp at h1; omega) (by simp at h2; omega)

theorem findTokens_nil : findTokens [] = [] := rfl

theorem findTokens_of_matchToken {s : List Char} {t : String × String × String}
    {rest : List Char} (h : matchToken s = some (t, rest)) :
    findTokens s = t :: findTokens rest := by
  rw [findTokens, findTokensFuel_succ_some h, findTokens]
  exact congrArg _
    (findTokensFuel_eq s.length rest (by have := matchToken_rest_lt h; omega)
      s.length (rest.length + 1) (matchToken_rest_lt h) (by omega))

/-! ## Round-trip lemmas -/

theorem matchLit_append (l r : List Char) : matchLit l (l ++ r) = some r := by
  induction l with
  | nil => simp [matchLit]
  | cons a as ih => simp [matchLit, ih]

theorem takeClassRun_run {xs : List Char} (hxs : ∀ x ∈ xs, isClassChar x = true)
    {c : Char} (hc : isClassChar c = false) (rest : List Char) :
    takeClassRun (xs ++ c :: rest) = (xs, c :: rest) := by
  induction xs with
  | nil => simp [takeClassRun, hc]
  | cons a as ih =>
    simp only [List.cons_append, takeClassRun]
    rw [if_pos (hxs a (by simp))]
    have := ih (fun x hx => hxs x (by simp [hx]))
    simp [this]

theorem matchValue_append {v : List Char} (h1 : hasBB v = false)
    (h2 : '\n' ∉ v) (h3 : v.getLast? ≠ some '}') (rest : List Char) :
    matchValue (v ++ '}' :: '}' :: rest) = some (v, rest) := by
  induction v with
  | nil => simp [matchValue]
  | cons c v' ih =>
    cases v' with
    | nil =>
      have hc1 : ¬ c = '}' := by simpa using h3
      have hc2 : ¬ c = '\n' := fun hc => h2 (by rw [hc]; exact List.mem_cons_self _ _)
      simp [matchValue, hc1, hc2]
    | cons d v'' =>
      rw [show hasBB (c :: d :: v'') = ((c = '}' && d = '}') || hasBB (d :: v'')) from rfl,
        Bool.or_eq_false_iff] at h1
      have hcd : ¬ (c = '}' ∧ d = '}') := by
        rintro ⟨hc, hd⟩
        rw [hc, hd] at h1
        simp at h1
      have hc2 : ¬ c = '\n' := by
        intro hc
        exact h2 (by rw [hc]; exact List.mem_cons_self _ _)
      have hb' : hasBB (d :: v'') = false := h1.2
      have hn' : '\n' ∉ d :: v'' := fun hx => h2 (List.mem_cons_of_mem _ hx)
      have hl' : (d :: v'').getLast? ≠ some '}' := by
        rwa [List.getLast?_cons_cons] at h3
      have hstep := ih hb' hn' hl'
      simp only [List.cons_append, matchValue]
      rw [if_neg hcd, if_neg hc2]
      simp only [List.cons_append] at hstep
      simp only [List.append_eq] at hstep ⊢
      rw [hstep]
      rfl

theorem mk_toList (s : String) : String.mk s.toList = s := rfl

theorem serializeToken_toList (o n v : String) :
    (serializeToken o n v).toList
      = tokenHead ++ (o.toList ++ (nameSep
        ++ (n.toList ++ (valueSep ++ (v.toList ++ ['}', '}']))))) := by
  simp only [serializeToken, String.toList, String.data_append]
  simp [tokenHead, nameSep, valueSep, String.toList]

theorem matchToken_serialize {o n v : String}
    (ho : ∀ x ∈ o.toList, isClassChar x = true)
    (hn1 : n.toList ≠ []) (hn2 : ∀ x ∈ n.toList, isClassChar x = true)
    (hv1 : hasBB v.toList = false) (hv2 : '\n' ∉ v.toList)
    (hv3 : v.toList.getLast? ≠ some '}') :
    matchToken (serializeToken o n v).toList = some ((o, n, v), []) := by
  have hsemi : isClassChar ';' = false := by decide
  have e2 : takeClassRun (o.toList ++ (nameSep ++ (n.toList
      ++ (valueSep ++ (v.toList ++ ['}', '}'])))))
      = (o.toList, nameSep ++ (n.toList ++ (valueSep ++ (v.toList ++ ['}', '}'])))) := by
    rw [show nameSep ++ (n.toList ++ (valueSep ++ (v.toList ++ ['}', '}'])))
        = ';' :: ("name=".toList ++ (n.toList ++ (valueSep ++ (v.toList ++ ['}', '}']))))
        from rfl]
    exact takeClassRun_run ho hsemi _
  have e4 : takeClassRun (n.toList ++ (valueSep ++ (v.toList ++ ['}', '}'])))
      = (n.toList, valueSep ++ (v.toList ++ ['}', '}'])) := by
    rw [show valueSep ++ (v.toList ++ ['}', '}'])
        = ';' :: ("value=".toList ++ (v.toList ++ ['}', '}'])) from rfl]
    exact takeClassRun_run hn2 hsemi _
  have e6 : matchValue (v.toList ++ ['}', '}']) = some (v.toList, []) :=
    matchValue_append hv1 hv2 hv3 []
  rw [serializeToken_toList]
  simp only [matchToken, matchLit_append, Option.some_bind, e2, e4, e6, if_neg hn1,
    Option.map_some', mk_toList]

/-! ## Set-listing lemmas -/

theorem validSetListing_pySetDedup : ValidSetListing pySetDedup :=
  fun m => ⟨List.nodup_dedup m, fun _ => List.mem_dedup⟩

theorem validSetListing_revSetDedup : ValidSetListing revSetDedup := by
  intro m
  constructor
  · simpa [revSetDedup] using List.nodup_dedup m
  · intro x
    simp [revSetDedup, List.mem_dedup]

theorem tripleToParam_injective : Function.Injective tripleToParam := by
  rintro ⟨a1, b1, c1⟩ ⟨a2, b2, c2⟩ h
  simp only [tripleToParam, PipelineParam.mk.injEq, Option.some_inj] at h
  obtain ⟨h1, h2, h3⟩ := h
  simp [h1, h2, h3]

theorem listing_of_pair_eq {α : Type} {l : List α} {t : α}
    (hn : l.Nodup) (hm : ∀ x, x ∈ l ↔ x ∈ [t, t]) : l = [t] := by
  cases l with
  | nil => exact absurd ((hm t).2 (by simp)) (by simp)
  | cons a l' =>
    have ha : a = t := by have := (hm a).1 (by simp); simpa using this
    cases l' with
    | nil => rw [ha]
    | cons b l'' =>
      have hb : b = t := by have := (hm b).1 (by simp); simpa using this
      rw [ha, hb] at hn
      simp at hn

/-! ## Constructor-shape lemmas -/

theorem ite_isEmpty_self (l : List PipelineParam) :
    (if l.isEmpty then ([] : List PipelineParam) else [] ++ l) = l := by
  cases l <;> simp

theorem buildOp_name (f : List (String × String × String) → List (String × String × String))
    (p : Pipeline) (name image : String) (cmd args : Option (List String))
    (fo : Option (List (String × String))) (eh : Bool) :
    (buildOp f p name image cmd args fo eh).name
      = freshIdent p.used_ids (normalizeName name) := rfl

theorem buildOp_inputs (f : List (String × String × String) → List (String × String × String))
    (p : Pipeline) (name image : String) (cmd args : Option (List String))
    (fo : Option (List (String × String))) (eh : Bool) :
    (buildOp f p name image cmd args fo eh).inputs
      = (f (scanArgs (cmd.getD [] ++ args.getD []))).map tripleToParam := by
  simp only [buildOp]
  exact ite_isEmpty_self _

theorem buildOp_outputs (f : List (String × String × String) → List (String × String × String))
    (p : Pipeline) (name image : String) (cmd args : Option (List String))
    (fo : Option (List (String × String))) (eh : Bool) :
    (buildOp f p name image cmd args fo eh).outputs
      = (fo.getD []).map (fun kv =>
          (kv.1, ({ name := kv.1, op_name := freshIdent p.used_ids (normalizeName name),
                    value := none } : PipelineParam))) := by
  simp only [buildOp]
  cases fo with
  | none => simp
  | some l => cases l <;> simp

theorem buildOp_output_def
    (f : List (String × String × String) → List (String × String × String))
    (p : Pipeline) (name image : String) (cmd args : Option (List String))
    (fo : Option (List (String × String))) (eh : Bool) :
    (buildOp f p name image cmd args fo eh).output
      = match (buildOp f p name image cmd args fo eh).outputs with
        | [kv] => some kv.2
        | _ => none := rfl

theorem init_ok_elim {f : List (String × String × String) → List (String × String × String)}
    {st : Option Pipeline} {name image : String} {cmd args : Option (List String)}
    {fo : Option (List (String × String))} {eh : Bool} {op : ContainerOp} {p2 : Pipeline}
    (h : ContainerOp.init f st name image cmd args fo eh = .ok (op, p2)) :
    ∃ p, st = some p ∧ validName name = true ∧
      op = buildOp f p name image cmd args fo eh ∧
      p2 = p.register op eh := by
  cases st with
  | none => simp [ContainerOp.init] at h
  | some p =>
    refine ⟨p, rfl, ?_⟩
    simp only [ContainerOp.init] at h
    split at h
    · rename_i hv
      rw [Except.ok.injEq, Prod.mk.injEq] at h
      obtain ⟨hop, hp2⟩ := h
      refine ⟨hv, hop.symm, ?_⟩
      rw [← hp2, hop]
    · simp at h

/-! ## Claim theorems -/

/-- C1, as frozen, is false on the code: `self.argument_inputs` is built from
`list(set(matches))`, whose enumeration order is implementation-defined (hash
based), not discovery order.  Concretely, enumerating the set of the two
discovered triples of `cmdTwoTok` backwards is a valid `list(set(...))`
behaviour (`ValidSetListing revSetDedup`), and under it the constructed
node's `inputs` is not the discovery-order list
`(scanArgs [cmdTwoTok]).map tripleToParam`. -/
theorem C1_counterexample :
    ValidSetListing revSetDedup ∧
    (ContainerOp.init revSetDedup (some pipeline0) "echo" "img" (some [cmdTwoTok]) none none
        false).map (fun r => r.1.inputs)
      = .ok [tripleToParam ("b", "y", "2"), tripleToParam ("a", "x", "1")] ∧
    [tripleToParam ("b", "y", "2"), tripleToParam ("a", "x", "1")]
      ≠ (scanArgs [cmdTwoTok]).map tripleToParam :=
  ⟨validSetListing_revSetDedup, by decide, by decide⟩

/-- C1 (amended): for every node constructed from command and arguments
sequences, under any valid enumeration of `list(set(...))`, the node's
`inputs` contains each parameter reference discovered in the concatenated
command and arguments text exactly once and nothing else — the deduplicated
set — but in an implementation-defined order rather than necessarily
discovery (first-seen) order. -/
theorem C1_inputs_dedup_set
    (f : List (String × String × String) → List (String × String × String))
    (hf : ValidSetListing f) (st : Option Pipeline) (name image : String)
    (cmd args : Option (List String)) (fo : Option (List (String × String))) (eh : Bool)
    (op : ContainerOp) (p2 : Pipeline)
    (h : ContainerOp.init f st name image cmd args fo eh = .ok (op, p2)) :
    op.inputs.Nodup ∧
      ∀ q, q ∈ op.inputs ↔ q ∈ (scanArgs (cmd.getD [] ++ args.getD [])).map tripleToParam := by
  obtain ⟨p, -, -, hop, -⟩ := init_ok_elim h
  subst hop
  rw [buildOp_inputs]
  obtain ⟨hnd, hmem⟩ := hf (scanArgs (cmd.getD [] ++ args.getD []))
  refine ⟨hnd.map tripleToParam_injective, ?_⟩
  intro q
  simp only [List.mem_map]
  constructor
  · rintro ⟨t, ht, rfl⟩
    exact ⟨t, (hmem t).1 ht, rfl⟩
  · rintro ⟨t, ht, rfl⟩
    exact ⟨t, (hmem t).2 ht, rfl⟩

/-- Witness for C1 (amended) at the concrete two-token run. -/
theorem C1_inputs_dedup_set_witness :
    opTwoTok.inputs.Nodup ∧
      (tripleToParam ("a", "x", "1") ∈ opTwoTok.inputs ↔
        tripleToParam ("a", "x", "1") ∈ (scanArgs [cmdTwoTok]).map tripleToParam) := by
  have h : ContainerOp.init pySetDedup (some pipeline0) "echo" "img" (some [cmdTwoTok])
      none none false = .ok (opTwoTok, pipTwoTok) := by decide
  have res := C1_inputs_dedup_set pySetDedup validSetListing_pySetDedup (some pipeline0)
    "echo" "img" (some [cmdTwoTok]) none none false opTwoTok pipTwoTok h
  exact ⟨res.1, res.2 _⟩

/-- C2, as frozen, is false on the code: with `op = ""`, `name = "n"`,
`value = "a}"` (which satisfies all stated preconditions — in particular
`"a}"` contains no `}}` substring), the serialized token ends in `a}}}`, the
non-greedy value group stops at the first `}}`, and parsing returns
`("", "n", "a")`, not the original triple. -/
theorem C2_counterexample :
    (∀ x ∈ "".toList, isClassChar x = true) ∧
    "n".toList ≠ [] ∧ (∀ x ∈ "n".toList, isClassChar x = true) ∧
    hasBB "a\x7d".toList = false ∧
    findTokens (serializeToken "" "n" "a\x7d").toList = [("", "n", "a")] ∧
    (("" : String), ("n" : String), ("a" : String)) ≠ ("", "n", "a\x7d") :=
  ⟨by decide, by decide, by decide, by decide, by decide, by decide⟩

/-- C2 (amended): for every triple `(op, name, value)` where `op` matches
`[\w\s_-]*`, `name` matches `[\w\s_-]+`, and `value` contains no `}}`
substring, contains no newline, and does not end in `}`, parsing the
serialized token with the scanner yields exactly the triple back. -/
theorem C2_roundtrip_amended (o n v : String)
    (ho : ∀ x ∈ o.toList, isClassChar x = true)
    (hn1 : n.toList ≠ []) (hn2 : ∀ x ∈ n.toList, isClassChar x = true)
    (hv1 : hasBB v.toList = false) (hv2 : '\n' ∉ v.toList)
    (hv3 : v.toList.getLast? ≠ some '}') :
    findTokens (serializeToken o n v).toList = [(o, n, v)] := by
  rw [findTokens_of_matchToken (matchToken_serialize ho hn1 hn2 hv1 hv2 hv3), findTokens_nil]

/-- Witness for C2 (amended) at a concrete round-trippable triple. -/
theorem C2_roundtrip_amended_witness :
    findTokens (serializeToken "op a" "x-1" "some value").toList
      = [("op a", "x-1", "some value")] :=
  C2_roundtrip_amended "op a" "x-1" "some value" (by decide) (by decide) (by decide)
    (by decide) (by decide) (by decide)

/-- C3: when scanning command plus arguments and merging, duplicate token
triples collapse to a single parameter reference (each scanned triple occurs
exactly once in `inputs`); two scanned tokens differing in any component
(producing op, name or value) give distinct members of `inputs`; and scanning
the spec's concrete text containing the same token twice yields exactly one
deduplicated reference `(op=a, name=x, value=1)`. -/
theorem C3_dedup_by_full_triple :
    (∀ f, ValidSetListing f → ∀ st name image cmd args fo eh op p2,
      ContainerOp.init f st name image cmd args fo eh = .ok (op, p2) →
      (∀ t ∈ scanArgs (cmd.getD [] ++ args.getD []),
        op.inputs.count (tripleToParam t) = 1) ∧
      (∀ t1 t2, t1 ∈ scanArgs (cmd.getD [] ++ args.getD []) →
        t2 ∈ scanArgs (cmd.getD [] ++ args.getD []) → t1 ≠ t2 →
        tripleToParam t1 ∈ op.inputs ∧ tripleToParam t2 ∈ op.inputs ∧
          tripleToParam t1 ≠ tripleToParam t2)) ∧
    (∀ f, ValidSetListing f → ∀ op p2,
      ContainerOp.init f (some pipeline0) "echo" "img" (some [cmdDupTok]) none none false
        = .ok (op, p2) →
      op.inputs = [tripleToParam ("a", "x", "1")]) := by
  constructor
  · intro f hf st name image cmd args fo eh op p2 h
    obtain ⟨p, -, -, hop, -⟩ := init_ok_elim h
    subst hop
    rw [buildOp_inputs]
    obtain ⟨hnd, hmem⟩ := hf (scanArgs (cmd.getD [] ++ args.getD []))
    constructor
    · intro t ht
      exact List.count_eq_one_of_mem (hnd.map tripleToParam_injective)
        (List.mem_map_of_mem tripleToParam ((hmem t).2 ht))
    · intro t1 t2 h1 h2 hne
      exact ⟨List.mem_map_of_mem tripleToParam ((hmem t1).2 h1),
        List.mem_map_of_mem tripleToParam ((hmem t2).2 h2),
        fun hc => hne (tripleToParam_injective hc)⟩
  · intro f hf op p2 h
    obtain ⟨p, -, -, hop, -⟩ := init_ok_elim h
    subst hop
    rw [buildOp_inputs]
    have hscan : scanArgs ((some [cmdDupTok]).getD [] ++ (none : Option (List String)).getD [])
        = [("a", "x", "1"), ("a", "x", "1")] := by decide
    rw [hscan]
    obtain ⟨hnd, hmem⟩ := hf [("a", "x", "1"), ("a", "x", "1")]
    rw [listing_of_pair_eq hnd hmem]
    rfl

/-- Witness for C3 at the concrete duplicate-token run. -/
theorem C3_dedup_by_full_triple_witness :
    opDupTok.inputs = [tripleToParam ("a", "x", "1")] := by
  have h : ContainerOp.init pySetDedup (some pipeline0) "echo" "img" (some [cmdDupTok])
      none none false = .ok (opDupTok, pipDupTok) := by decide
  exact C3_dedup_by_full_triple.2 pySetDedup validSetListing_pySetDedup opDupTok pipDupTok h

/-- C4: for every successfully constructed node, `outputs` has exactly one
parameter reference per key of `declared_outputs` (`file_outputs`), each with
`producing_op` (`op_name`) equal to the node's identity (`self.name`), name
equal to the key, and no value; and if there is exactly one key, that
reference is also the node's single default `output`. -/
theorem C4_outputs_wiring
    (f : List (String × String × String) → List (String × String × String))
    (st : Option Pipeline) (name image : String) (cmd args : Option (List String))
    (fo : Option (List (String × String))) (eh : Bool) (op : ContainerOp) (p2 : Pipeline)
    (h : ContainerOp.init f st name image cmd args fo eh = .ok (op, p2)) :
    op.outputs = (fo.getD []).map (fun kv =>
        (kv.1, ({ name := kv.1, op_name := op.name, value := none } : PipelineParam))) ∧
    ∀ k path, fo.getD [] = [(k, path)] →
      op.output = some ({ name := k, op_name := op.name, value := none } : PipelineParam) := by
  obtain ⟨p, -, -, hop, -⟩ := init_ok_elim h
  subst hop
  rw [buildOp_name, buildOp_outputs]
  refine ⟨rfl, ?_⟩
  intro k path hsingle
  rw [buildOp_output_def, buildOp_outputs, hsingle]
  rfl

/-- Witness for C4 at the concrete single-output run. -/
theorem C4_outputs_wiring_witness :
    opOneOut.outputs = [("model",
      ({ name := "model", op_name := opOneOut.name, value := none } : PipelineParam))] ∧
    opOneOut.output
      = some ({ name := "model", op_name := opOneOut.name, value := none } : PipelineParam) := by
  have h : ContainerOp.init pySetDedup (some pipeline0) "train" "img" none none
      (some [("model", "/out/model")]) false = .ok (opOneOut, pipOneOut) := by decide
  have res := C4_outputs_wiring pySetDedup (some pipeline0) "train" "img" none none
    (some [("model", "/out/model")]) false opOneOut pipOneOut h
  exact ⟨res.1, res.2 "model" "/out/model" rfl⟩

/-- C5: constructing a node with no active Graph Registry (no default
pipeline) fails with the no-active-graph error before any other effect,
whatever the remaining arguments are (the check is the first statement of
`__init__`; in the state-passing embedding no pipeline state even exists to
be touched). -/
theorem C5_no_active_graph
    (f : List (String × String × String) → List (String × String × String))
    (name image : String) (cmd args : Option (List String))
    (fo : Option (List (String × String))) (eh : Bool) :
    ContainerOp.init f none name image cmd args fo eh = .error .noActivePipeline := rfl

/-- C6: for every display name rejected by `^[A-Za-z][A-Za-z0-9\s_-]*$`,
construction inside an active graph fails with the invalid-name error.  The
name check precedes the `add_op` registration call in the source (lines
53–59), and the error result carries no successor pipeline, so the registry
the caller holds — and its node count — is exactly the pre-call `p`. -/
theorem C6_invalid_name
    (f : List (String × String × String) → List (String × String × String))
    (p : Pipeline) (name image : String) (cmd args : Option (List String))
    (fo : Option (List (String × String))) (eh : Bool)
    (h : validName name = false) :
    ContainerOp.init f (some p) name image cmd args fo eh = .error (.invalidName name)
      ∧ ∀ op p2, ContainerOp.init f (some p) name image cmd args fo eh ≠ .ok (op, p2) := by
  refine ⟨by simp [ContainerOp.init, h], ?_⟩
  intro op p2 hc
  obtain ⟨q, hq, hv, -⟩ := init_ok_elim hc
  rw [hv] at h
  exact absurd h (by simp)

/-- Witness for C6 at the concrete invalid name `"9bad"`. -/
theorem C6_invalid_name_witness :
    validName "9bad" = false ∧
    ContainerOp.init pySetDedup (some pipeline0) "9bad" "img" none none none false
      = .error (.invalidName "9bad") :=
  ⟨by decide,
    (C6_invalid_name pySetDedup pipeline0 "9bad" "img" none none none false (by decide)).1⟩

/-- C7: for every pair of nodes `a` and `b`, `a.after b` appends `b.name`
(its identity) to `a.dependent_op_names` and leaves every other field of `a`
— `inputs` in particular — unchanged. -/
theorem C7_after_frame (a b : ContainerOp) :
    (a.after b).dependent_op_names = a.dependent_op_names ++ [b.name] ∧
    (a.after b).inputs = a.inputs ∧
    (a.after b).human_name = a.human_name ∧
    (a.after b).name = a.name ∧
    (a.after b).image = a.image ∧
    (a.after b).command = a.command ∧
    (a.after b).arguments = a.arguments ∧
    (a.after b).is_exit_handler = a.is_exit_handler ∧
    (a.after b).resource_limits = a.resource_limits ∧
    (a.after b).resource_requests = a.resource_requests ∧
    (a.after b).node_selector = a.node_selector ∧
    (a.after b).volumes = a.volumes ∧
    (a.after b).volume_mounts = a.volume_mounts ∧
    (a.after b).env_variables = a.env_variables ∧
    (a.after b).pod_annotations = a.pod_annotations ∧
    (a.after b).pod_labels = a.pod_labels ∧
    (a.after b).num_retries = a.num_retries ∧
    (a.after b).argument_inputs = a.argument_inputs ∧
    (a.after b).file_outputs = a.file_outputs ∧
    (a.after b).outputs = a.outputs ∧
    (a.after b).output = a.output :=
  ⟨rfl, rfl, rfl, rfl, rfl, rfl, rfl, rfl, rfl, rfl, rfl, rfl, rfl, rfl, rfl, rfl, rfl,
    rfl, rfl, rfl, rfl⟩

/-- C8: each resource setter validates before mutating, so a failing call
returns the raised error together with a node state identical to the one
before the call: `set_memory_request`/`set_memory_limit` on a string rejected
by the memory regex, `set_cpu_request`/`set_cpu_limit` on a string that
neither matches `^[0-9]+m$` nor parses as a Python float, and
`set_gpu_limit` on a count that is not a positive integer or a vendor other
than nvidia/amd. -/
theorem C8_setter_exception_safety :
    (∀ (op : ContainerOp) (m : String), matchMemoryRegex m = false →
      op.set_memory_request m = (op, some OpError.invalidMemoryString)) ∧
    (∀ (op : ContainerOp) (m : String), matchMemoryRegex m = false →
      op.set_memory_limit m = (op, some OpError.invalidMemoryString)) ∧
    (∀ (op : ContainerOp) (c : String), matchCpuRegex c = false →
      pyFloatParseable c = false →
      op.set_cpu_request c = (op, some OpError.invalidCpuString)) ∧
    (∀ (op : ContainerOp) (c : String), matchCpuRegex c = false →
      pyFloatParseable c = false →
      op.set_cpu_limit c = (op, some OpError.invalidCpuString)) ∧
    (∀ (op : ContainerOp) (g v : String),
      (validate_positive_number g "gpu").isSome ∨ (v ≠ "nvidia" ∧ v ≠ "amd") →
      (op.set_gpu_limit g v).1 = op ∧ (op.set_gpu_limit g v).2.isSome) := by
  refine ⟨?_, ?_, ?_, ?_, ?_⟩
  · intro op m hm
    simp [ContainerOp.set_memory_request, validate_memory_string, hm]
  · intro op m hm
    simp [ContainerOp.set_memory_limit, validate_memory_string, hm]
  · intro op c h1 h2
    simp [ContainerOp.set_cpu_request, validate_cpu_string, h1, h2]
  · intro op c h1 h2
    simp [ContainerOp.set_cpu_limit, validate_cpu_string, h1, h2]
  · intro op g v hbad
    cases hval : validate_positive_number g "gpu" with
    | some e => simp [ContainerOp.set_gpu_limit, hval]
    | none =>
      rcases hbad with hsome | ⟨hv1, hv2⟩
      · rw [hval] at hsome
        simp at hsome
      · simp [ContainerOp.set_gpu_limit, hval, hv1, hv2]

/-- Witness for C8 at concrete malformed inputs. -/
theorem C8_setter_exception_safety_witness :
    defaultOp.set_memory_request "100X" = (defaultOp, some OpError.invalidMemoryString) ∧
    defaultOp.set_memory_limit "1..5" = (defaultOp, some OpError.invalidMemoryString) ∧
    defaultOp.set_cpu_request "abc" = (defaultOp, some OpError.invalidCpuString) ∧
    defaultOp.set_cpu_limit "10mm" = (defaultOp, some OpError.invalidCpuString) ∧
    ((defaultOp.set_gpu_limit "0" "nvidia").1 = defaultOp ∧
      (defaultOp.set_gpu_limit "0" "nvidia").2.isSome) ∧
    ((defaultOp.set_gpu_limit "2" "intel").1 = defaultOp ∧
      (defaultOp.set_gpu_limit "2" "intel").2.isSome) :=
  ⟨C8_setter_exception_safety.1 defaultOp "100X" (by decide),
    C8_setter_exception_safety.2.1 defaultOp "1..5" (by decide),
    C8_setter_exception_safety.2.2.1 defaultOp "abc" (by decide) (by decide),
    C8_setter_exception_safety.2.2.2.1 defaultOp "10mm" (by decide) (by decide),
    C8_setter_exception_safety.2.2.2.2 defaultOp "0" "nvidia" (Or.inl (by decide)),
    C8_setter_exception_safety.2.2.2.2 defaultOp "2" "intel" (Or.inr (by decide))⟩

/-- C9: for every successfully constructed node whose `file_outputs` does not
have exactly one entry (absent, empty, or two or more), the default-output
field `output` is defined and holds `none`. -/
theorem C9_default_output_none
    (f : List (String × String × String) → List (String × String × String))
    (st : Option Pipeline) (name image : String) (cmd args : Option (List String))
    (fo : Option (List (String × String))) (eh : Bool) (op : ContainerOp) (p2 : Pipeline)
    (h : ContainerOp.init f st name image cmd args fo eh = .ok (op, p2))
    (hn : (fo.getD []).length ≠ 1) :
    op.output = none := by
  obtain ⟨p, -, -, hop, -⟩ := init_ok_elim h
  subst hop
  rw [buildOp_output_def, buildOp_outputs]
  rcases hfo : fo.getD [] with _ | ⟨kv, _ | ⟨kv2, tl2⟩⟩
  · rfl
  · exact absurd (by rw [hfo]; rfl) hn
  · rfl

/-- Witness for C9 at the concrete two-output run. -/
theorem C9_default_output_none_witness : opTwoOut.output = none := by
  have h : ContainerOp.init pySetDedup (some pipeline0) "train" "img" none none
      (some [("a", "/a"), ("b", "/b")]) false = .ok (opTwoOut, pipTwoOut) := by decide
  exact C9_default_output_none pySetDedup (some pipeline0) "train" "img" none none
    (some [("a", "/a"), ("b", "/b")]) false opTwoOut pipTwoOut h (by decide)

/-- C10: `set_cpu_request`/`set_cpu_limit` raise exactly when the string
neither matches `^[0-9]+m$` nor parses as a Python float; any float-parseable
string is accepted and stored into the respective resource dict under the
key `"cpu"`; in particular negative numbers, `inf`, `nan` and exponent
notation such as `1e3` are accepted. -/
theorem C10_cpu_validation :
    (∀ (op : ContainerOp) (c : String),
      ((op.set_cpu_limit c).2.isSome
        ↔ matchCpuRegex c = false ∧ pyFloatParseable c = false) ∧
      ((op.set_cpu_request c).2.isSome
        ↔ matchCpuRegex c = false ∧ pyFloatParseable c = false) ∧
      (pyFloatParseable c = true →
        op.set_cpu_limit c = (op.add_resource_limit "cpu" c, none) ∧
        op.set_cpu_request c = (op.add_resource_request "cpu" c, none))) ∧
    pyFloatParseable "-3" = true ∧ pyFloatParseable "inf" = true ∧
    pyFloatParseable "nan" = true ∧ pyFloatParseable "1e3" = true := by
  refine ⟨?_, by decide, by decide, by decide, by decide⟩
  intro op c
  by_cases h1 : matchCpuRegex c
  · simp [ContainerOp.set_cpu_limit, ContainerOp.set_cpu_request, validate_cpu_string, h1]
  · by_cases h2 : pyFloatParseable c
    · simp [ContainerOp.set_cpu_limit, ContainerOp.set_cpu_request, validate_cpu_string, h1, h2]
    · simp [ContainerOp.set_cpu_limit, ContainerOp.set_cpu_request, validate_cpu_string, h1, h2]

/-- Witness for C10: `"1e3"` is accepted and stored as the cpu limit. -/
theorem C10_cpu_validation_witness :
    defaultOp.set_cpu_limit "1e3" = (defaultOp.add_resource_limit "cpu" "1e3", none) :=
  ((C10_cpu_validation.1 defaultOp "1e3").2.2 (by decide)).1

end Kfp
